import Mathlib

/-!
Verification development for the PyFactorGraph trajectory serialization subsystem.

The development shallowly embeds `py_factor_graph/io/tum_file.py`
(`save_robot_trajectories_to_tum_file`) and the test-support equivalence
checkers of `py_factor_graph/io/tests/test_io.py` (`check_file_equality`,
`check_tum_line_closeness`).  Floating-point values are modelled as exact
rationals; Python's fixed-point rendering `f"{x:.{d}f}"` is modelled by
rounding `x * 10^d` to an integer and printing sign, integer part, a dot and
exactly `d` zero-padded fraction digits.  Helper modules of the repository
that are not part of the two embedded files (`matrix_utils`, `name_utils`,
`logging_utils`, `factor_graph`) are modelled from the specification, as
marked on each definition.
-/

/-- Modelled from the spec: `F_PREC` lives in
`py_factor_graph/utils/logging_utils.py`, which is not part of the embedded
sources.  The Precision Policy (spec section 4.2) fixes the number of rendered
fractional digits; the spec's concrete scenario (section 8) shows six digits. -/
def F_PREC : Nat := 6

/-- The decimal digit character for a residue `r < 10`. -/
def digitChar (r : Nat) : Char := Char.ofNat (48 + r)

/-- Decimal digits of a natural number, most significant first, computed with
an explicit fuel bound so that the definition is structurally recursive.
This is the rendering used by Python's string formatting for the integer and
fraction parts of a fixed-point number. -/
def natDigitsAux : Nat → Nat → List Char
  | 0, _ => []
  | fuel + 1, n =>
    if n < 10 then [digitChar n]
    else natDigitsAux fuel (n / 10) ++ [digitChar (n % 10)]

/-- Decimal digits of a natural number, most significant first (`n + 1` fuel
always suffices since a number has at most `n + 1` digits). -/
def natDigits (n : Nat) : List Char := natDigitsAux (n + 1) n

/-- Left-pad a digit string with zeros up to width `d` (Python zero-pads the
fraction part of a fixed-point rendering). -/
def padLeftZeros (d : Nat) (l : List Char) : List Char :=
  List.replicate (d - l.length) '0' ++ l

/-- Character-list form of Python's fixed-point rendering `f"{q:.{d}f}"` on an
exact rational: round `q * 10^d` to an integer and print sign, integer part,
a dot, and exactly `d` fraction digits. -/
def fmtFixedL (q : ℚ) (d : Nat) : List Char :=
  (if round (q * (10 : ℚ) ^ d) < 0 then ['-'] else []) ++
    natDigits ((round (q * (10 : ℚ) ^ d)).natAbs / 10 ^ d) ++
    '.' :: padLeftZeros d (natDigits ((round (q * (10 : ℚ) ^ d)).natAbs % 10 ^ d))

/-- String form of the fixed-point rendering. -/
def fmtFixed (q : ℚ) (d : Nat) : String := String.mk (fmtFixedL q d)

/-- Strip one leading minus sign, if any. -/
def stripSign (l : List Char) : List Char :=
  if l.head? = some '-' then l.tail else l

/-- Recognizer for a fixed-point numeral with exactly `d` fraction digits:
an optional minus sign, at least one integer digit, a dot, then exactly `d`
digits. -/
def isFixedDecimalL (d : Nat) (l : List Char) : Bool :=
  decide (1 ≤ ((stripSign l).takeWhile Char.isDigit).length) &&
  (((stripSign l).dropWhile Char.isDigit).head? == some '.') &&
  decide (((stripSign l).dropWhile Char.isDigit).tail.length = d) &&
  ((stripSign l).dropWhile Char.isDigit).tail.all Char.isDigit

/-- Split a character list at every occurrence of `sep` (the semantics of
splitting a TUM line at single spaces). -/
def splitOnChar (sep : Char) : List Char → List (List Char)
  | [] => [[]]
  | c :: cs =>
    if c = sep then [] :: splitOnChar sep cs
    else
      match splitOnChar sep cs with
      | [] => [[c]]
      | g :: gs => (c :: g) :: gs

/-- Join fields with a single `sep` between consecutive fields (the layout of
a TUM data row: fields separated by single spaces). -/
def joinFields (sep : Char) : List (List Char) → List Char
  | [] => []
  | [f] => f
  | f :: g :: gs => f ++ sep :: joinFields sep (g :: gs)

/-- Split a string at spaces into its fields. -/
def splitFields (s : String) : List String :=
  (splitOnChar ' ' s.data).map String.mk

/-- Recognizer for a well-formed TUM data row: exactly eight space-separated
fields, each a fixed-point numeral with `d` fraction digits. -/
def tumDataLine (d : Nat) (s : String) : Bool :=
  decide ((splitOnChar ' ' s.data).length = 8) &&
  (splitOnChar ' ' s.data).all (isFixedDecimalL d)

/-- Modelled from the spec: the 3x3 rotation block of an SE(3) transformation
matrix (`matrix_utils.py` is not part of the embedded sources).  Entries are
row-major exact rationals. -/
structure Mat3 where
  m11 : ℚ
  m12 : ℚ
  m13 : ℚ
  m21 : ℚ
  m22 : ℚ
  m23 : ℚ
  m31 : ℚ
  m32 : ℚ
  m33 : ℚ
deriving DecidableEq

/-- Modelled from the spec: a rotation matrix is either the 2x2 planar block
of an SE(2) transform or the 3x3 block of an SE(3) transform (spec section 3,
"Rotation representations"). -/
inductive RotMat where
  | dim2 (r11 r12 r21 r22 : ℚ)
  | dim3 (m : Mat3)
deriving DecidableEq

/-- Modelled from the spec: a homogeneous transformation matrix, 3x3 for
SE(2) (2x2 rotation block plus 2-vector translation) or 4x4 for SE(3)
(3x3 rotation block plus 3-vector translation) (spec section 3). -/
inductive TransformMat where
  | se2 (r11 r12 r21 r22 tx ty : ℚ)
  | se3 (m : Mat3) (tx ty tz : ℚ)
deriving DecidableEq

/-- Modelled from the spec: `get_rotation_matrix_from_transformation_matrix`
of `matrix_utils.py` splits a homogeneous transform into its rotation block
(spec section 4.1, `decompose_transform`). -/
def get_rotation_matrix_from_transformation_matrix : TransformMat → RotMat
  | .se2 r11 r12 r21 r22 _ _ => .dim2 r11 r12 r21 r22
  | .se3 m _ _ _ => .dim3 m

/-- Modelled from the spec: `get_translation_from_transformation_matrix`
of `matrix_utils.py` extracts the length-2 or length-3 translation vector
(spec section 4.1, `decompose_transform`). -/
def get_translation_from_transformation_matrix : TransformMat → List ℚ
  | .se2 _ _ _ _ tx ty => [tx, ty]
  | .se3 _ tx ty tz => [tx, ty, tz]

/-- Modelled from the spec: `get_quat_from_rotation_matrix` of
`matrix_utils.py`.  Per spec section 4.1, a 2x2 rotation matrix is embedded as
a 3x3 rotation about the z-axis before conversion, so its quaternion always
has zero x and y components, with z and w derived from the half angle; a 3x3
matrix is converted by a numerically stable algorithm.  The half-angle values
and the 3x3 conversion are irrational in general and no claim constrains
them, so they are taken as parameters `h2` (from the 2x2 entries cos, sin)
and `q3` (from the 3x3 block); every theorem below holds for all choices. -/
def get_quat_from_rotation_matrix (h2 : ℚ → ℚ → ℚ × ℚ)
    (q3 : Mat3 → ℚ × ℚ × ℚ × ℚ) : RotMat → ℚ × ℚ × ℚ × ℚ
  | .dim2 r11 _ r21 _ => ((0 : ℚ), (0 : ℚ), (h2 r11 r21).1, (h2 r11 r21).2)
  | .dim3 m => q3 m

/-- Modelled from the spec: the `PoseVariable` attributes consumed by the TUM
exporter.  Only the optional timestamp is read by
`save_robot_trajectories_to_tum_file` (via `pose_variables_dict[...].timestamp`);
the transformation matrix of a pose travels separately through the trajectory
mappings (spec sections 3 and 6). -/
structure PoseVariable where
  timestamp : Option ℚ
deriving DecidableEq

/-- Modelled from the spec: the `FactorGraphData` fields read by the TUM
exporter (spec section 6, "Upstream collaborator"): the robot characters, the
pose-variable mapping keyed by frame identifier, and the two per-robot
ordered trajectory mappings.  Ordered mappings are association lists in
insertion order. -/
structure FactorGraphData where
  all_robot_chars : List Char
  pose_variables_dict : List (String × PoseVariable)
  robot_true_trajectories_dict : List (Char × List (String × TransformMat))
  robot_odometry_trajectories_dict : List (Char × List (String × TransformMat))
deriving DecidableEq

/-- The leading value of a TUM row, from `tum_file.py` lines 53-57: the pose
variable's stored timestamp when it `is not None`, otherwise the time index
derived from the frame name by `get_time_idx_from_frame_name` (a function of
`name_utils.py`, not part of the embedded sources; it is passed in as the
parameter `gti`). -/
def tum_leading_value (gti : String → ℚ) (ts : Option ℚ) (k : String) : ℚ :=
  match ts with
  | some t => t
  | none => gti k

/-- Modelled from the spec: the leading-value precedence of the TUM exporter
contract in spec section 4.4, which takes an additional `use_pose_index`
flag: the stored timestamp if present, else a derived time index (`gti`) if
`use_pose_index` is false, else the numeric pose index extracted from the
frame identifier (`pidx`) if `use_pose_index` is true.  Stated for comparison
with `tum_leading_value`, the embedding of the source. -/
def spec_leading_value (gti pidx : String → ℚ) (use_pose_index : Bool)
    (ts : Option ℚ) (k : String) : ℚ :=
  match ts with
  | some t => t
  | none => if use_pose_index then pidx k else gti k

/-- The eight fields of a TUM data row, each rendered at `F_PREC` fraction
digits, in the fixed column order timestamp, x, y, z, qx, qy, qz, qw
(`tum_file.py` lines 64-69). -/
def tumFields (ts x y z qx qy qz qw : ℚ) : List (List Char) :=
  [fmtFixedL ts F_PREC, fmtFixedL x F_PREC, fmtFixedL y F_PREC, fmtFixedL z F_PREC,
   fmtFixedL qx F_PREC, fmtFixedL qy F_PREC, fmtFixedL qz F_PREC, fmtFixedL qw F_PREC]

/-- One TUM data row for one trajectory entry, from `tum_file.py` lines
51-69: look up the pose variable (a failed dictionary lookup is a `KeyError`,
modelled as `none`), resolve the leading value, derive the quaternion and the
translation from the transform, pad a 2-component translation with a trailing
zero, and render the eight space-separated fields. -/
def tum_entry_row (gti : String → ℚ) (h2 : ℚ → ℚ → ℚ × ℚ)
    (q3 : Mat3 → ℚ × ℚ × ℚ × ℚ) (pose_variables_dict : List (String × PoseVariable))
    (robot_and_pose_id : String) (T : TransformMat) : Option String :=
  match List.lookup robot_and_pose_id pose_variables_dict with
  | none => none
  | some pv =>
    match (if (get_translation_from_transformation_matrix T).length = 2
           then get_translation_from_transformation_matrix T ++ [0]
           else get_translation_from_transformation_matrix T) with
    | [x, y, z] =>
      some (String.mk (joinFields ' ' (tumFields
        (tum_leading_value gti pv.timestamp robot_and_pose_id) x y z
        (get_quat_from_rotation_matrix h2 q3
          (get_rotation_matrix_from_transformation_matrix T)).1
        (get_quat_from_rotation_matrix h2 q3
          (get_rotation_matrix_from_transformation_matrix T)).2.1
        (get_quat_from_rotation_matrix h2 q3
          (get_rotation_matrix_from_transformation_matrix T)).2.2.1
        (get_quat_from_rotation_matrix h2 q3
          (get_rotation_matrix_from_transformation_matrix T)).2.2.2)))
    | _ => none

/-- The fixed header comment written as the first line of every TUM file
(`tum_file.py` line 48). -/
def tumHeader : String := "# time_stamp x y z qx qy qz qw"

/-- `os.path.join(dir, name)` for a directory path with no trailing
separator, the only case the exporter exercises. -/
def os_path_join (d name : String) : String := d ++ "/" ++ name

/-- The per-robot file name `{file_prefix}{robot_char}.txt`
(`tum_file.py` line 42). -/
def tum_file_name (pre : String) (c : Char) : String :=
  pre ++ String.singleton c ++ ".txt"

/-- A written TUM file: its path and its lines (newline-terminated lines of
the Python file are the list elements). -/
structure TumFile where
  path : String
  lines : List String
deriving DecidableEq

/-- Sequential row writes for one robot's trajectory (`tum_file.py` lines
51-70): rows are written one at a time; a failing entry stops the loop with
the rows written so far on disk (`false` marks the raised exception). -/
def writeRows (rowFn : String → TransformMat → Option String) :
    List (String × TransformMat) → List String × Bool
  | [] => ([], true)
  | e :: rest =>
    match rowFn e.1 e.2 with
    | none => ([], false)
    | some r =>
      ((writeRows rowFn rest).1.cons r, (writeRows rowFn rest).2)

/-- The body of the per-robot loop of `save_robot_trajectories_to_tum_file`
(`tum_file.py` lines 40-70): open the robot's file, write the header, then
the trajectory rows.  A missing trajectory for the robot raises `KeyError`
after the header write; a failing row stops after the rows already written.
The first component is the file as left on disk; the second is whether the
loop body completed without an exception. -/
def saveRobotFile (rowFn : String → TransformMat → Option String)
    (td : List (Char × List (String × TransformMat))) (dir pre : String)
    (c : Char) : TumFile × Bool :=
  match List.lookup c td with
  | none => (⟨os_path_join dir (tum_file_name pre c), [tumHeader]⟩, false)
  | some traj =>
    (⟨os_path_join dir (tum_file_name pre c),
      tumHeader :: (writeRows rowFn traj).1⟩, (writeRows rowFn traj).2)

/-- The per-robot loop of `save_robot_trajectories_to_tum_file`
(`tum_file.py` lines 40-79): one file per robot character, the path appended
to the returned list after each completed file.  The first component is what
is on disk afterwards (an exception leaves the current partial file and stops
the loop); the second is the Python return value, `none` when an exception
aborted the call. -/
def saveTumAux (rowFn : String → TransformMat → Option String)
    (td : List (Char × List (String × TransformMat))) (dir pre : String) :
    List Char → List TumFile × Option (List String)
  | [] => ([], some [])
  | c :: rest =>
    cond (saveRobotFile rowFn td dir pre c).2
      ((saveRobotFile rowFn td dir pre c).1 :: (saveTumAux rowFn td dir pre rest).1,
       (saveTumAux rowFn td dir pre rest).2.map
          fun ps => (saveRobotFile rowFn td dir pre c).1.path :: ps)
      ([(saveRobotFile rowFn td dir pre c).1], none)

/-- The TUM exporter `save_robot_trajectories_to_tum_file` of `tum_file.py`
(lines 15-79): select the file prefix and the trajectory dictionary from
`use_ground_truth`, then write one file per robot character.  The result is
the pair (files on disk, returned list of written paths); the second
component is `none` when the Python call raises. -/
def save_robot_trajectories_to_tum_file (gti : String → ℚ)
    (h2 : ℚ → ℚ → ℚ × ℚ) (q3 : Mat3 → ℚ × ℚ × ℚ × ℚ)
    (fg : FactorGraphData) (dir : String) (use_ground_truth : Bool) :
    List TumFile × Option (List String) :=
  saveTumAux (tum_entry_row gti h2 q3 fg.pose_variables_dict)
    (if use_ground_truth then fg.robot_true_trajectories_dict
     else fg.robot_odometry_trajectories_dict)
    dir
    (if use_ground_truth then "odom_gt_robot_" else "odom_meas_robot_")
    fg.all_robot_chars

/-- State-passing form of the exporter: the factor graph is threaded through
the call as mutable state would be.  Every access the source makes to `fg`
(`all_robot_chars`, the two trajectory dictionaries, `pose_variables_dict`)
is a read, so the final state is the input graph. -/
def save_robot_trajectories_to_tum_file_st (gti : String → ℚ)
    (h2 : ℚ → ℚ → ℚ × ℚ) (q3 : Mat3 → ℚ × ℚ × ℚ × ℚ)
    (fg : FactorGraphData) (dir : String) (use_ground_truth : Bool) :
    (List TumFile × Option (List String)) × FactorGraphData :=
  (save_robot_trajectories_to_tum_file gti h2 q3 fg dir use_ground_truth, fg)

/-- Python's `str.strip()`: remove leading and trailing whitespace. -/
def pyStrip (s : String) : String :=
  String.mk (((s.data.dropWhile Char.isWhitespace).reverse.dropWhile
    Char.isWhitespace).reverse)

/-- `check_file_equality` of `test_io.py` (lines 28-42): iterate the two
files' lines in lockstep with `zip` (which stops at the shorter file),
returning `False` at the first pair whose stripped lines differ and `True`
once the loop ends.  Files are modelled as their lists of lines. -/
def check_file_equality (f1 f2 : List String) : Bool :=
  (f1.zip f2).all fun p => pyStrip p.1 == pyStrip p.2

/-- `np.allclose(a, b, rtol, atol)` on 1-D arrays of equal shape:
every pair satisfies `|a - b| <= atol + rtol * |b|`.  (NumPy raises on
non-broadcastable shapes; every comparison below is between equal-length
arrays, where this guard is exact.) -/
def np_allclose (rtol atol : ℚ) (a b : List ℚ) : Bool :=
  decide (a.length = b.length) &&
  (a.zip b).all fun p => decide (|p.1 - p.2| ≤ atol + rtol * |p.2|)

/-- NumPy's default relative tolerance `rtol=1e-05`, which
`check_tum_line_closeness` leaves in place. -/
def np_rtol_default : ℚ := 1 / 100000

/-- `check_tum_line_closeness` of `test_io.py` (lines 45-65): fail
immediately on a line-count mismatch, then compare each pair of lines with
`np.allclose(..., atol=F_PREC)` — the digit count itself is passed as the
absolute tolerance.  Lines are modelled as their parsed numeric fields
(`np.fromstring(line, sep=" ")`). -/
def check_tum_line_closeness (l1 l2 : List (List ℚ)) : Bool :=
  decide (l1.length = l2.length) &&
  (l1.zip l2).all fun p => np_allclose np_rtol_default (F_PREC : ℚ) p.1 p.2

/-- Map a fallible function over a list, succeeding only if every element
succeeds, preserving order. -/
def mapOpt {α β : Type} (f : α → Option β) : List α → Option (List β)
  | [] => some []
  | a :: l =>
    match f a with
    | none => none
    | some b => (mapOpt f l).map fun bs => b :: bs

/-- The file the exporter produces for one robot when every lookup and row
write succeeds: the per-robot path, the header line, then one row per
trajectory entry in insertion order. -/
def expectedTumFile (rowFn : String → TransformMat → Option String)
    (td : List (Char × List (String × TransformMat))) (dir pre : String)
    (c : Char) : Option TumFile :=
  (List.lookup c td).bind fun traj =>
    (mapOpt (fun e => rowFn e.1 e.2) traj).map fun rows =>
      ⟨os_path_join dir (tum_file_name pre c), tumHeader :: rows⟩

/-- A concrete derived-time-index function for witnesses. -/
def gtiZero : String → ℚ := fun _ => 0

/-- A concrete half-angle kernel for witnesses. -/
def half2Sample : ℚ → ℚ → ℚ × ℚ := fun _ _ => (0, 1)

/-- A concrete 3x3-to-quaternion kernel for witnesses. -/
def q3Sample : Mat3 → ℚ × ℚ × ℚ × ℚ := fun _ => (0, 0, 0, 1)

/-- A concrete SE(2) homogeneous transform for witnesses. -/
def T2Sample : TransformMat := .se2 1 0 0 1 1 2

/-- A concrete factor graph (one robot, two poses, both trajectory
dictionaries populated) on which the export completes. -/
def fgSample : FactorGraphData :=
  ⟨['A'], [("A0", ⟨some 0⟩), ("A1", ⟨none⟩)],
   [('A', [("A0", T2Sample), ("A1", T2Sample)])],
   [('A', [("A0", T2Sample), ("A1", T2Sample)])]⟩

/-- A concrete factor graph whose pose-variable dictionary is missing the
entry for frame "A1": the export of robot A raises `KeyError` after writing
the header and the first row. -/
def fgPartial : FactorGraphData :=
  ⟨['A'], [("A0", ⟨some 0⟩)],
   [('A', [("A0", T2Sample), ("A1", T2Sample)])], []⟩

theorem digitChar_isDigit (r : Nat) (h : r < 10) : (digitChar r).isDigit = true := by
  interval_cases r <;> decide

theorem natDigits_ne_nil (n : Nat) : natDigits n ≠ [] := by
  unfold natDigits natDigitsAux
  split <;> simp

theorem natDigitsAux_all_digit (fuel : Nat) : ∀ n : Nat, ∀ c ∈ natDigitsAux fuel n,
    c.isDigit = true := by
  induction fuel with
  | zero => intro n c hc; simp [natDigitsAux] at hc
  | succ fuel ih =>
    intro n c hc
    rw [natDigitsAux] at hc
    split at hc
    · rcases List.mem_singleton.mp hc with rfl
      exact digitChar_isDigit n (by assumption)
    · rcases List.mem_append.mp hc with h1 | h2
      · exact ih (n / 10) c h1
      · rcases List.mem_singleton.mp h2 with rfl
        exact digitChar_isDigit (n % 10) (Nat.mod_lt n (by norm_num))

theorem natDigits_all_digit (n : Nat) : ∀ c ∈ natDigits n, c.isDigit = true :=
  natDigitsAux_all_digit (n + 1) n

theorem natDigitsAux_length_le (fuel : Nat) : ∀ d n : Nat, 1 ≤ d → n < 10 ^ d →
    (natDigitsAux fuel n).length ≤ d := by
  induction fuel with
  | zero => intro d n _ _; simp [natDigitsAux]
  | succ fuel ih =>
    intro d n hd hn
    rw [natDigitsAux]
    split
    · simpa using hd
    · rename_i h
      obtain ⟨e, rfl⟩ : ∃ e, d = e + 1 := ⟨d - 1, by omega⟩
      have he : 1 ≤ e := by
        rcases Nat.eq_zero_or_pos e with rfl | he
        · simp at hn; omega
        · exact he
      have hdiv : n / 10 < 10 ^ e := by
        rw [Nat.div_lt_iff_lt_mul (by norm_num)]
        calc n < 10 ^ (e + 1) := hn
          _ = 10 ^ e * 10 := by ring
      have := ih e (n / 10) he hdiv
      simp only [List.length_append, List.length_singleton]
      omega

theorem natDigits_length_le (d : Nat) : ∀ n : Nat, 1 ≤ d → n < 10 ^ d →
    (natDigits n).length ≤ d := fun n hd hn => natDigitsAux_length_le (n + 1) d n hd hn

theorem ne_of_isDigit (c x : Char) (h : c.isDigit = true) (hx : ¬ x.isDigit = true) :
    c ≠ x := fun he => hx (he ▸ h)

theorem takeWhile_append_of_all (p : Char → Bool) (a b : List Char)
    (ha : ∀ c ∈ a, p c = true) : (a ++ b).takeWhile p = a ++ b.takeWhile p := by
  induction a with
  | nil => simp
  | cons x xs ih =>
    have hx : p x = true := ha x (List.mem_cons_self x xs)
    simp only [List.cons_append, List.takeWhile, hx, List.append_eq]
    rw [ih fun c hc => ha c (List.mem_cons_of_mem x hc)]

theorem dropWhile_append_of_all (p : Char → Bool) (a b : List Char)
    (ha : ∀ c ∈ a, p c = true) : (a ++ b).dropWhile p = b.dropWhile p := by
  induction a with
  | nil => simp
  | cons x xs ih =>
    have hx : p x = true := ha x (List.mem_cons_self x xs)
    simp only [List.cons_append, List.dropWhile, hx]
    exact ih fun c hc => ha c (List.mem_cons_of_mem x hc)

theorem isFixedDecimalL_build (d : Nat) (sgn ip fr : List Char)
    (hsgn : sgn = [] ∨ sgn = ['-'])
    (hipne : ip ≠ []) (hip : ∀ c ∈ ip, c.isDigit = true)
    (hfrlen : fr.length = d) (hfrdig : ∀ c ∈ fr, c.isDigit = true) :
    isFixedDecimalL d (sgn ++ ip ++ '.' :: fr) = true := by
  obtain ⟨c, cs, rfl⟩ := List.exists_cons_of_ne_nil hipne
  have hc : c.isDigit = true := hip c (List.mem_cons_self c cs)
  have hcne : ¬ c = '-' := ne_of_isDigit c '-' hc (by decide)
  have hdot : ('.' : Char).isDigit = false := by decide
  have hstrip : stripSign (sgn ++ (c :: cs) ++ '.' :: fr) = (c :: cs) ++ '.' :: fr := by
    rcases hsgn with rfl | rfl
    · unfold stripSign
      rw [List.nil_append, if_neg]
      simp only [List.cons_append, List.head?_cons, Option.some.injEq]
      exact hcne
    · unfold stripSign
      simp
  have htake : ((c :: cs) ++ '.' :: fr).takeWhile Char.isDigit = c :: cs := by
    rw [takeWhile_append_of_all Char.isDigit (c :: cs) ('.' :: fr) hip]
    simp [List.takeWhile, hdot]
  have hdrop : ((c :: cs) ++ '.' :: fr).dropWhile Char.isDigit = '.' :: fr := by
    rw [dropWhile_append_of_all Char.isDigit (c :: cs) ('.' :: fr) hip]
    simp [List.dropWhile, hdot]
  unfold isFixedDecimalL
  rw [hstrip, htake, hdrop]
  simp only [List.head?_cons, List.tail_cons, Bool.and_eq_true, decide_eq_true_eq,
    beq_iff_eq, List.all_eq_true, List.length_cons]
  exact ⟨⟨⟨by omega, by trivial⟩, hfrlen⟩, hfrdig⟩

theorem fmtFixedL_core (q : ℚ) (d : Nat) (hd : 1 ≤ d) :
    isFixedDecimalL d (fmtFixedL q d) = true := by
  have hfrac : (round (q * (10 : ℚ) ^ d)).natAbs % 10 ^ d < 10 ^ d :=
    Nat.mod_lt _ (Nat.pos_pow_of_pos d (by norm_num))
  refine isFixedDecimalL_build d _ _ _ ?_
    (natDigits_ne_nil _) (natDigits_all_digit _) ?_ ?_
  · split
    · right; rfl
    · left; rfl
  · unfold padLeftZeros
    have := natDigits_length_le d _ hd hfrac
    simp only [List.length_append, List.length_replicate]
    omega
  · unfold padLeftZeros
    intro c hc
    rcases List.mem_append.mp hc with h1 | h2
    · rcases List.eq_of_mem_replicate h1 with rfl
      decide
    · exact natDigits_all_digit _ c h2

theorem fmtFixedL_ne_nil (q : ℚ) (d : Nat) : fmtFixedL q d ≠ [] := by
  unfold fmtFixedL
  split <;> simp

theorem fmtFixedL_no_space (q : ℚ) (d : Nat) : ∀ c ∈ fmtFixedL q d, c ≠ ' ' := by
  unfold fmtFixedL
  intro c hc
  have hdig : ∀ x : Char, x.isDigit = true → x ≠ ' ' := fun x hx =>
    ne_of_isDigit x ' ' hx (by decide)
  rcases List.mem_append.mp hc with h1 | h2
  · rcases List.mem_append.mp h1 with ha | hb
    · split at ha
      · rcases List.mem_singleton.mp ha with rfl
        decide
      · simp at ha
    · exact hdig c (natDigits_all_digit _ c hb)
  · rcases List.mem_cons.mp h2 with rfl | h3
    · decide
    · unfold padLeftZeros at h3
      rcases List.mem_append.mp h3 with h4 | h5
      · rcases List.eq_of_mem_replicate h4 with rfl
        decide
      · exact hdig c (natDigits_all_digit _ c h5)

theorem splitOnChar_no_sep (sep : Char) (f : List Char)
    (h : ∀ c ∈ f, c ≠ sep) : splitOnChar sep f = [f] := by
  induction f with
  | nil => rfl
  | cons c cs ih =>
    have hc : ¬ c = sep := h c (List.mem_cons_self c cs)
    rw [splitOnChar, if_neg hc, ih fun x hx => h x (List.mem_cons_of_mem c hx)]

theorem splitOnChar_append_sep (sep : Char) (f t : List Char)
    (h : ∀ c ∈ f, c ≠ sep) :
    splitOnChar sep (f ++ sep :: t) = f :: splitOnChar sep t := by
  induction f with
  | nil => simp [splitOnChar]
  | cons c cs ih =>
    have hc : ¬ c = sep := h c (List.mem_cons_self c cs)
    have ih2 := ih fun x hx => h x (List.mem_cons_of_mem c hx)
    simp only [List.cons_append]
    rw [splitOnChar, if_neg hc, ih2]

theorem splitOnChar_joinFields (sep : Char) (fs : List (List Char)) (hne : fs ≠ [])
    (hf : ∀ f ∈ fs, ∀ c ∈ f, c ≠ sep) :
    splitOnChar sep (joinFields sep fs) = fs := by
  induction fs with
  | nil => exact absurd rfl hne
  | cons f fs ih =>
    cases fs with
    | nil =>
      rw [joinFields]
      exact splitOnChar_no_sep sep f (hf f (List.mem_cons_self f []))
    | cons g gs =>
      rw [joinFields, splitOnChar_append_sep sep f (joinFields sep (g :: gs))
        (hf f (List.mem_cons_self f (g :: gs)))]
      rw [ih (by simp) fun x hx c hc => hf x (List.mem_cons_of_mem f hx) c hc]

theorem mapOpt_length {α β : Type} (f : α → Option β) :
    ∀ l : List α, ∀ bs : List β, mapOpt f l = some bs → bs.length = l.length := by
  intro l
  induction l with
  | nil => intro bs h; simp [mapOpt] at h; simp [← h]
  | cons a l ih =>
    intro bs h
    rw [mapOpt] at h
    cases hfa : f a with
    | none => rw [hfa] at h; cases h
    | some b =>
      rw [hfa] at h
      cases hrest : mapOpt f l with
      | none => rw [hrest] at h; cases h
      | some cs =>
        rw [hrest] at h
        simp only [Option.map, Option.some.injEq] at h
        subst h
        simp [ih cs hrest]

theorem mapOpt_get {α β : Type} (f : α → Option β) :
    ∀ l : List α, ∀ bs : List β, mapOpt f l = some bs →
    ∀ i (hi : i < l.length) (hb : i < bs.length),
      f (l.get ⟨i, hi⟩) = some (bs.get ⟨i, hb⟩) := by
  intro l
  induction l with
  | nil => intro bs _ i hi; simp at hi
  | cons a l ih =>
    intro bs h i hi hb
    rw [mapOpt] at h
    cases hfa : f a with
    | none => rw [hfa] at h; cases h
    | some b =>
      rw [hfa] at h
      cases hrest : mapOpt f l with
      | none => rw [hrest] at h; cases h
      | some cs =>
        rw [hrest] at h
        simp only [Option.map, Option.some.injEq] at h
        subst h
        cases i with
        | zero => simpa using hfa
        | succ j =>
          exact ih cs hrest j (Nat.lt_of_succ_lt_succ hi)
            (Nat.lt_of_succ_lt_succ (by simpa using hb))

theorem mapOpt_mem {α β : Type} (f : α → Option β) :
    ∀ l : List α, ∀ bs : List β, mapOpt f l = some bs →
    ∀ b ∈ bs, ∃ a ∈ l, f a = some b := by
  intro l
  induction l with
  | nil =>
    intro bs h b hb
    simp [mapOpt] at h
    subst h
    simp at hb
  | cons a l ih =>
    intro bs h b hb
    rw [mapOpt] at h
    cases hfa : f a with
    | none => rw [hfa] at h; cases h
    | some c =>
      rw [hfa] at h
      cases hrest : mapOpt f l with
      | none => rw [hrest] at h; cases h
      | some cs =>
        rw [hrest] at h
        simp only [Option.map, Option.some.injEq] at h
        subst h
        rcases List.mem_cons.mp hb with rfl | hb2
        · exact ⟨a, List.mem_cons_self a l, hfa⟩
        · rcases ih cs hrest b hb2 with ⟨x, hx, hfx⟩
          exact ⟨x, List.mem_cons_of_mem a hx, hfx⟩

theorem writeRows_spec (rowFn : String → TransformMat → Option String) :
    ∀ l : List (String × TransformMat), (writeRows rowFn l).2 = true →
    mapOpt (fun e => rowFn e.1 e.2) l = some (writeRows rowFn l).1 := by
  intro l
  induction l with
  | nil => intro _; rfl
  | cons e rest ih =>
    intro h
    rw [writeRows] at h ⊢
    cases hfe : rowFn e.1 e.2 with
    | none =>
      rw [hfe] at h
      simp at h
    | some r =>
      rw [hfe] at h
      replace h : (writeRows rowFn rest).2 = true := h
      show mapOpt (fun e => rowFn e.1 e.2) (e :: rest)
        = some (r :: (writeRows rowFn rest).1)
      rw [mapOpt.eq_def]
      simp only [hfe]
      rw [ih h]
      rfl

theorem saveRobotFile_true (rowFn : String → TransformMat → Option String)
    (td : List (Char × List (String × TransformMat))) (dir pre : String)
    (c : Char) (h : (saveRobotFile rowFn td dir pre c).2 = true) :
    expectedTumFile rowFn td dir pre c = some (saveRobotFile rowFn td dir pre c).1 := by
  unfold saveRobotFile at h ⊢
  unfold expectedTumFile
  cases hlk : List.lookup c td with
  | none => rw [hlk] at h; cases h
  | some traj =>
    rw [hlk] at h
    replace h : (writeRows rowFn traj).2 = true := h
    show (mapOpt (fun e => rowFn e.1 e.2) traj).map
        (fun rows => (⟨os_path_join dir (tum_file_name pre c), tumHeader :: rows⟩ : TumFile))
      = some ⟨os_path_join dir (tum_file_name pre c), tumHeader :: (writeRows rowFn traj).1⟩
    rw [writeRows_spec rowFn traj h]
    rfl

theorem expectedTumFile_path (rowFn : String → TransformMat → Option String)
    (td : List (Char × List (String × TransformMat))) (dir pre : String)
    (c : Char) (f : TumFile) (h : expectedTumFile rowFn td dir pre c = some f) :
    f.path = os_path_join dir (tum_file_name pre c) := by
  unfold expectedTumFile at h
  cases hlk : List.lookup c td with
  | none => rw [hlk] at h; cases h
  | some traj =>
    rw [hlk] at h
    replace h : (mapOpt (fun e => rowFn e.1 e.2) traj).map
        (fun rows => (⟨os_path_join dir (tum_file_name pre c), tumHeader :: rows⟩ : TumFile))
      = some f := h
    cases hm : mapOpt (fun e => rowFn e.1 e.2) traj with
    | none => rw [hm] at h; cases h
    | some rows =>
      rw [hm] at h
      simp only [Option.map, Option.some.injEq] at h
      rw [← h]

theorem expectedTumFile_spec (rowFn : String → TransformMat → Option String)
    (td : List (Char × List (String × TransformMat))) (dir pre : String)
    (c : Char) (f : TumFile) (h : expectedTumFile rowFn td dir pre c = some f) :
    ∃ traj, List.lookup c td = some traj ∧
      mapOpt (fun e => rowFn e.1 e.2) traj = some f.lines.tail ∧
      f.lines = tumHeader :: f.lines.tail := by
  unfold expectedTumFile at h
  cases hlk : List.lookup c td with
  | none => rw [hlk] at h; cases h
  | some traj =>
    rw [hlk] at h
    replace h : (mapOpt (fun e => rowFn e.1 e.2) traj).map
        (fun rows => (⟨os_path_join dir (tum_file_name pre c), tumHeader :: rows⟩ : TumFile))
      = some f := h
    cases hm : mapOpt (fun e => rowFn e.1 e.2) traj with
    | none => rw [hm] at h; cases h
    | some rows =>
      rw [hm] at h
      simp only [Option.map, Option.some.injEq] at h
      subst h
      exact ⟨traj, rfl, hm, rfl⟩

theorem saveTumAux_success (rowFn : String → TransformMat → Option String)
    (td : List (Char × List (String × TransformMat))) (dir pre : String) :
    ∀ robots : List Char, ((saveTumAux rowFn td dir pre robots).2).isSome = true →
    mapOpt (expectedTumFile rowFn td dir pre) robots
      = some (saveTumAux rowFn td dir pre robots).1 ∧
    (saveTumAux rowFn td dir pre robots).2
      = some ((saveTumAux rowFn td dir pre robots).1.map TumFile.path) := by
  intro robots
  induction robots with
  | nil => intro _; exact ⟨rfl, rfl⟩
  | cons c rest ih =>
    intro hsome
    rw [saveTumAux] at hsome ⊢
    cases hok : (saveRobotFile rowFn td dir pre c).2 with
    | false =>
      rw [hok] at hsome
      simp [cond] at hsome
    | true =>
      rw [hok] at hsome
      replace hsome : ((saveTumAux rowFn td dir pre rest).2.map
          fun ps => (saveRobotFile rowFn td dir pre c).1.path :: ps).isSome = true := hsome
      have htail : ((saveTumAux rowFn td dir pre rest).2).isSome = true := by
        cases hA : (saveTumAux rowFn td dir pre rest).2 with
        | none => rw [hA] at hsome; simp at hsome
        | some ps => rfl
      rcases ih htail with ⟨hmap, hret⟩
      have hexp : expectedTumFile rowFn td dir pre c
          = some (saveRobotFile rowFn td dir pre c).1 :=
        saveRobotFile_true rowFn td dir pre c hok
      constructor
      · show mapOpt (expectedTumFile rowFn td dir pre) (c :: rest)
          = some ((saveRobotFile rowFn td dir pre c).1
              :: (saveTumAux rowFn td dir pre rest).1)
        rw [mapOpt.eq_def]
        simp only [hexp]
        rw [hmap]
        rfl
      · show ((saveTumAux rowFn td dir pre rest).2.map
            fun ps => (saveRobotFile rowFn td dir pre c).1.path :: ps)
          = some (((saveRobotFile rowFn td dir pre c).1
              :: (saveTumAux rowFn td dir pre rest).1).map TumFile.path)
        rw [hret]
        rfl

theorem tumFields_mem (ts x y z qx qy qz qw : ℚ) :
    ∀ f ∈ tumFields ts x y z qx qy qz qw, ∃ q, f = fmtFixedL q F_PREC := by
  intro f hf
  simp only [tumFields, List.mem_cons, List.not_mem_nil, or_false] at hf
  rcases hf with rfl | rfl | rfl | rfl | rfl | rfl | rfl | rfl
  exacts [⟨ts, rfl⟩, ⟨x, rfl⟩, ⟨y, rfl⟩, ⟨z, rfl⟩, ⟨qx, rfl⟩, ⟨qy, rfl⟩, ⟨qz, rfl⟩,
    ⟨qw, rfl⟩]

theorem splitOnChar_tumFields (ts x y z qx qy qz qw : ℚ) :
    splitOnChar ' ' (joinFields ' ' (tumFields ts x y z qx qy qz qw))
      = tumFields ts x y z qx qy qz qw := by
  apply splitOnChar_joinFields
  · simp [tumFields]
  · intro f hf c hc
    obtain ⟨q, rfl⟩ := tumFields_mem ts x y z qx qy qz qw f hf
    exact fmtFixedL_no_space q F_PREC c hc

theorem splitFields_row (ts x y z qx qy qz qw : ℚ) :
    splitFields (String.mk (joinFields ' ' (tumFields ts x y z qx qy qz qw)))
      = [fmtFixed ts F_PREC, fmtFixed x F_PREC, fmtFixed y F_PREC, fmtFixed z F_PREC,
         fmtFixed qx F_PREC, fmtFixed qy F_PREC, fmtFixed qz F_PREC,
         fmtFixed qw F_PREC] := by
  show (splitOnChar ' ' (joinFields ' ' (tumFields ts x y z qx qy qz qw))).map String.mk
      = _
  rw [splitOnChar_tumFields]
  rfl

theorem tumDataLine_row (ts x y z qx qy qz qw : ℚ) :
    tumDataLine F_PREC (String.mk (joinFields ' ' (tumFields ts x y z qx qy qz qw)))
      = true := by
  show (decide ((splitOnChar ' ' (joinFields ' ' (tumFields ts x y z qx qy qz qw))).length
        = 8) &&
      (splitOnChar ' ' (joinFields ' ' (tumFields ts x y z qx qy qz qw))).all
        (isFixedDecimalL F_PREC)) = true
  rw [splitOnChar_tumFields]
  refine (Bool.and_eq_true _ _).mpr ⟨by simp [tumFields], ?_⟩
  rw [List.all_eq_true]
  intro f hf
  obtain ⟨q, rfl⟩ := tumFields_mem ts x y z qx qy qz qw f hf
  exact fmtFixedL_core q F_PREC (by norm_num [F_PREC])

theorem tum_entry_row_eq_se2 (gti : String → ℚ) (h2 : ℚ → ℚ → ℚ × ℚ)
    (q3 : Mat3 → ℚ × ℚ × ℚ × ℚ) (pvdict : List (String × PoseVariable)) (k : String)
    (r11 r12 r21 r22 tx ty : ℚ) (pv : PoseVariable)
    (hlk : List.lookup k pvdict = some pv) :
    tum_entry_row gti h2 q3 pvdict k (.se2 r11 r12 r21 r22 tx ty)
      = some (String.mk (joinFields ' ' (tumFields
          (tum_leading_value gti pv.timestamp k) tx ty 0
          0 0 (h2 r11 r21).1 (h2 r11 r21).2))) := by
  unfold tum_entry_row
  rw [hlk]
  rfl

theorem tum_entry_row_eq_se3 (gti : String → ℚ) (h2 : ℚ → ℚ → ℚ × ℚ)
    (q3 : Mat3 → ℚ × ℚ × ℚ × ℚ) (pvdict : List (String × PoseVariable)) (k : String)
    (m : Mat3) (tx ty tz : ℚ) (pv : PoseVariable)
    (hlk : List.lookup k pvdict = some pv) :
    tum_entry_row gti h2 q3 pvdict k (.se3 m tx ty tz)
      = some (String.mk (joinFields ' ' (tumFields
          (tum_leading_value gti pv.timestamp k) tx ty tz
          (q3 m).1 (q3 m).2.1 (q3 m).2.2.1 (q3 m).2.2.2))) := by
  unfold tum_entry_row
  rw [hlk]
  rfl

theorem tum_entry_row_shape (gti : String → ℚ) (h2 : ℚ → ℚ → ℚ × ℚ)
    (q3 : Mat3 → ℚ × ℚ × ℚ × ℚ) (pvdict : List (String × PoseVariable)) (k : String)
    (T : TransformMat) (r : String)
    (h : tum_entry_row gti h2 q3 pvdict k T = some r) :
    tumDataLine F_PREC r = true := by
  cases hlk : List.lookup k pvdict with
  | none =>
    unfold tum_entry_row at h
    rw [hlk] at h
    cases h
  | some pv =>
    cases T with
    | se2 r11 r12 r21 r22 tx ty =>
      rw [tum_entry_row_eq_se2 gti h2 q3 pvdict k r11 r12 r21 r22 tx ty pv hlk] at h
      injection h with h2eq
      rw [← h2eq]
      exact tumDataLine_row _ _ _ _ _ _ _ _
    | se3 m tx ty tz =>
      rw [tum_entry_row_eq_se3 gti h2 q3 pvdict k m tx ty tz pv hlk] at h
      injection h with h2eq
      rw [← h2eq]
      exact tumDataLine_row _ _ _ _ _ _ _ _

/-- C1: the exporter in `tum_file.py` has no `use_pose_index` parameter and
no pose-index branch: its leading-value fallback is always the derived time
index, never the numeric pose index, whereas the contract of spec section 4.4
(`spec_leading_value`, with `use_pose_index = true` and an absent timestamp)
selects the pose index.  At a frame whose derived time index (0) differs from
its pose index (1) the two disagree, witnessing that the code lacks the
flagged precedence the claim (and the code's own test, which calls the
exporter with four arguments) requires. -/
theorem claim_C1_eval :
    tum_leading_value (fun _ => (0 : ℚ)) none "A1" = 0 ∧
    spec_leading_value (fun _ => (0 : ℚ)) (fun _ => (1 : ℚ)) true none "A1" = 1 ∧
    tum_leading_value (fun _ => (0 : ℚ)) none "A1"
      ≠ spec_leading_value (fun _ => (0 : ℚ)) (fun _ => (1 : ℚ)) true none "A1" := by
  refine ⟨rfl, rfl, ?_⟩
  show (0 : ℚ) ≠ 1
  norm_num

unseal Rat.add Rat.mul Rat.inv Rat.sub in
/-- C2: `check_tum_line_closeness` passes the digit count `F_PREC` itself as
the absolute tolerance of `np.allclose`, so two rows whose first fields
differ by a full unit (far beyond one unit in the last rendered place,
`10^-F_PREC`) are accepted, while the tolerance claimed by the spec rejects
a difference of 1. -/
theorem claim_C2_eval :
    check_tum_line_closeness [[0, 0, 0, 0, 0, 0, 0, 0]] [[1, 0, 0, 0, 0, 0, 0, 0]]
      = true ∧
    ¬ (|(0 : ℚ) - 1| ≤ 1 / 10 ^ F_PREC) := by
  constructor
  · decide
  · norm_num [F_PREC]

unseal Rat.add Rat.mul Rat.inv Rat.sub in
/-- C3: `check_file_equality` zips the two files and stops at the shorter
one, so a file that is a strict line-prefix of the other is reported equal
(`true`) instead of failing on the line-count mismatch; the line-count guard
exists only in `check_tum_line_closeness`, which does return `false`
immediately on a 5-line versus 4-line input. -/
theorem claim_C3_eval :
    check_file_equality ["# h", "a b"] ["# h", "a b", "extra"] = true ∧
    check_tum_line_closeness [[1], [1], [1], [1], [1]] [[1], [1], [1], [1]]
      = false := by
  constructor
  · decide
  · decide

/-- C9: the exporter never mutates the factor graph: in the state-passing
embedding the final graph is the input graph, the result coincides with the
pure export, and a repeated export (of the graph state left by a first
export, with any arguments) returns exactly what a direct export returns. -/
theorem claim_C9 (gti : String → ℚ) (h2 : ℚ → ℚ → ℚ × ℚ)
    (q3 : Mat3 → ℚ × ℚ × ℚ × ℚ) (fg : FactorGraphData) (d1 d2 : String)
    (u1 u2 : Bool) :
    (save_robot_trajectories_to_tum_file_st gti h2 q3 fg d1 u1).2 = fg ∧
    (save_robot_trajectories_to_tum_file_st gti h2 q3 fg d1 u1).1
      = save_robot_trajectories_to_tum_file gti h2 q3 fg d1 u1 ∧
    (save_robot_trajectories_to_tum_file_st gti h2 q3
        (save_robot_trajectories_to_tum_file_st gti h2 q3 fg d1 u1).2 d2 u2).1
      = (save_robot_trajectories_to_tum_file_st gti h2 q3 fg d2 u2).1 :=
  ⟨rfl, rfl, rfl⟩

/-- C10: the timestamp presence test of `tum_file.py` lines 53-57 is
`is not None`, not truthiness: a stored timestamp of exactly 0 is used as the
row's leading value (rendered as the fixed-point zero), a stored timestamp
`t` is always used verbatim, and the frame-name-derived index is used exactly
when the timestamp is `None`. -/
theorem claim_C10 (gti : String → ℚ) (h2 : ℚ → ℚ → ℚ × ℚ)
    (q3 : Mat3 → ℚ × ℚ × ℚ × ℚ) (pvdict : List (String × PoseVariable))
    (k : String) (T : TransformMat) (pv : PoseVariable)
    (hlk : List.lookup k pvdict = some pv) :
    (pv.timestamp = some 0 →
      (tum_entry_row gti h2 q3 pvdict k T).map (fun r => (splitFields r).head?)
        = some (some (fmtFixed 0 F_PREC))) ∧
    (∀ t : ℚ, pv.timestamp = some t → tum_leading_value gti pv.timestamp k = t) ∧
    (pv.timestamp = none → tum_leading_value gti pv.timestamp k = gti k) := by
  refine ⟨?_, ?_, ?_⟩
  · intro hts
    cases T with
    | se2 r11 r12 r21 r22 tx ty =>
      rw [tum_entry_row_eq_se2 gti h2 q3 pvdict k r11 r12 r21 r22 tx ty pv hlk]
      show some ((splitFields (String.mk (joinFields ' ' (tumFields
          (tum_leading_value gti pv.timestamp k) tx ty 0
          0 0 (h2 r11 r21).1 (h2 r11 r21).2)))).head?)
        = some (some (fmtFixed 0 F_PREC))
      rw [splitFields_row, hts]
      rfl
    | se3 m tx ty tz =>
      rw [tum_entry_row_eq_se3 gti h2 q3 pvdict k m tx ty tz pv hlk]
      show some ((splitFields (String.mk (joinFields ' ' (tumFields
          (tum_leading_value gti pv.timestamp k) tx ty tz
          (q3 m).1 (q3 m).2.1 (q3 m).2.2.1 (q3 m).2.2.2)))).head?)
        = some (some (fmtFixed 0 F_PREC))
      rw [splitFields_row, hts]
      rfl
  · intro t ht
    rw [ht]
    rfl
  · intro ht
    rw [ht]
    rfl

unseal Rat.add Rat.mul Rat.inv Rat.sub in
/-- C10 witness: a pose variable with stored timestamp exactly 0 found for
frame "A0" makes the emitted row's leading field the rendered zero
timestamp. -/
theorem claim_C10_witness :
    (tum_entry_row gtiZero half2Sample q3Sample [("A0", ⟨some 0⟩)] "A0"
        T2Sample).map (fun r => (splitFields r).head?)
      = some (some (fmtFixed 0 F_PREC)) :=
  (claim_C10 gtiZero half2Sample q3Sample [("A0", ⟨some 0⟩)] "A0" T2Sample
    ⟨some 0⟩ (by decide)).1 rfl

/-- C6: for an SE(2) trajectory entry, whose decomposed translation has only
two components, the emitted row still has eight fields: the third translation
component (field index 3) is the zero added by the padding, rendered as the
fixed-point zero at the configured precision, and the quaternion's x and y
fields (indices 4 and 5) are both the rendered zero. -/
theorem claim_C6 (gti : String → ℚ) (h2 : ℚ → ℚ → ℚ × ℚ)
    (q3 : Mat3 → ℚ × ℚ × ℚ × ℚ) (pvdict : List (String × PoseVariable))
    (k : String) (r11 r12 r21 r22 tx ty : ℚ) (r : String)
    (h : tum_entry_row gti h2 q3 pvdict k (TransformMat.se2 r11 r12 r21 r22 tx ty)
      = some r) :
    (splitFields r).length = 8 ∧
    (splitFields r)[3]? = some (fmtFixed 0 F_PREC) ∧
    (splitFields r)[4]? = some (fmtFixed 0 F_PREC) ∧
    (splitFields r)[5]? = some (fmtFixed 0 F_PREC) := by
  cases hlk : List.lookup k pvdict with
  | none =>
    unfold tum_entry_row at h
    rw [hlk] at h
    cases h
  | some pv =>
    rw [tum_entry_row_eq_se2 gti h2 q3 pvdict k r11 r12 r21 r22 tx ty pv hlk] at h
    injection h with heq
    rw [← heq, splitFields_row]
    exact ⟨rfl, rfl, rfl, rfl⟩

unseal Rat.add Rat.mul Rat.inv Rat.sub in
/-- C6 witness: a concrete SE(2) entry with translation (1, 2) produces the
eight-field row with zero z, qx and qy fields. -/
theorem claim_C6_witness :
    tum_entry_row gtiZero half2Sample q3Sample [("A0", ⟨some 0⟩)] "A0" T2Sample
      = some "0.000000 1.000000 2.000000 0.000000 0.000000 0.000000 0.000000 1.000000" ∧
    ((splitFields
        "0.000000 1.000000 2.000000 0.000000 0.000000 0.000000 0.000000 1.000000").length
      = 8 ∧
    (splitFields
        "0.000000 1.000000 2.000000 0.000000 0.000000 0.000000 0.000000 1.000000")[3]?
      = some (fmtFixed 0 F_PREC) ∧
    (splitFields
        "0.000000 1.000000 2.000000 0.000000 0.000000 0.000000 0.000000 1.000000")[4]?
      = some (fmtFixed 0 F_PREC) ∧
    (splitFields
        "0.000000 1.000000 2.000000 0.000000 0.000000 0.000000 0.000000 1.000000")[5]?
      = some (fmtFixed 0 F_PREC)) :=
  ⟨by decide,
   claim_C6 gtiZero half2Sample q3Sample [("A0", ⟨some 0⟩)] "A0" 1 0 0 1 1 2
     "0.000000 1.000000 2.000000 0.000000 0.000000 0.000000 0.000000 1.000000"
     (by decide)⟩

theorem mapOpt_path_map (rowFn : String → TransformMat → Option String)
    (td : List (Char × List (String × TransformMat))) (dir pre : String) :
    ∀ robots files, mapOpt (expectedTumFile rowFn td dir pre) robots = some files →
    files.map TumFile.path
      = robots.map fun c => os_path_join dir (tum_file_name pre c) := by
  intro robots
  induction robots with
  | nil =>
    intro files h
    replace h : some ([] : List TumFile) = some files := h
    injection h with h
    rw [← h]
    rfl
  | cons c rest ih =>
    intro files h
    rw [mapOpt] at h
    cases hc : expectedTumFile rowFn td dir pre c with
    | none => rw [hc] at h; cases h
    | some f =>
      rw [hc] at h
      cases hrest : mapOpt (expectedTumFile rowFn td dir pre) rest with
      | none => rw [hrest] at h; cases h
      | some fs =>
        rw [hrest] at h
        simp only [Option.map, Option.some.injEq] at h
        subst h
        simp only [List.map_cons]
        rw [ih fs hrest, expectedTumFile_path rowFn td dir pre c f hc]

/-- C4: when the exporter completes, it has written exactly one file per
robot character, in robot iteration order, named
`odom_gt_robot_<char>.txt` under ground truth and `odom_meas_robot_<char>.txt`
otherwise, inside the given directory, and its return value is exactly the
list of those written file paths. -/
theorem claim_C4 (gti : String → ℚ) (h2 : ℚ → ℚ → ℚ × ℚ)
    (q3 : Mat3 → ℚ × ℚ × ℚ × ℚ) (fg : FactorGraphData) (dir : String) (ugt : Bool)
    (hs : ((save_robot_trajectories_to_tum_file gti h2 q3 fg dir ugt).2).isSome
      = true) :
    (save_robot_trajectories_to_tum_file gti h2 q3 fg dir ugt).1.map TumFile.path
      = fg.all_robot_chars.map (fun c => os_path_join dir (tum_file_name
          (if ugt then "odom_gt_robot_" else "odom_meas_robot_") c)) ∧
    (save_robot_trajectories_to_tum_file gti h2 q3 fg dir ugt).2
      = some ((save_robot_trajectories_to_tum_file gti h2 q3 fg dir ugt).1.map
          TumFile.path) := by
  unfold save_robot_trajectories_to_tum_file at hs ⊢
  rcases saveTumAux_success _ _ _ _ _ hs with ⟨hmap, hret⟩
  exact ⟨mapOpt_path_map _ _ _ _ _ _ hmap, hret⟩

unseal Rat.add Rat.mul Rat.inv Rat.sub in
/-- C4 witness: exporting the sample graph (one robot A) in ground-truth
mode writes exactly the file `tmp/odom_gt_robot_A.txt` and returns exactly
that path list. -/
theorem claim_C4_witness :
    (save_robot_trajectories_to_tum_file gtiZero half2Sample q3Sample fgSample
        "tmp" true).1.map TumFile.path
      = fgSample.all_robot_chars.map (fun c => os_path_join "tmp" (tum_file_name
          (if true then "odom_gt_robot_" else "odom_meas_robot_") c)) ∧
    (save_robot_trajectories_to_tum_file gtiZero half2Sample q3Sample fgSample
        "tmp" true).2
      = some ((save_robot_trajectories_to_tum_file gtiZero half2Sample q3Sample
          fgSample "tmp" true).1.map TumFile.path) :=
  claim_C4 gtiZero half2Sample q3Sample fgSample "tmp" true (by decide)

/-- C5: when the exporter completes, there is one file per robot, and each
file's data lines are exactly the rows of that robot's trajectory, one row
per entry in insertion order (`mapOpt` preserves order and length), every row
consisting of exactly eight space-separated fields, each a fixed-point
numeral with `F_PREC` fraction digits (`tumDataLine`). -/
theorem claim_C5 (gti : String → ℚ) (h2 : ℚ → ℚ → ℚ × ℚ)
    (q3 : Mat3 → ℚ × ℚ × ℚ × ℚ) (fg : FactorGraphData) (dir : String) (ugt : Bool)
    (hs : ((save_robot_trajectories_to_tum_file gti h2 q3 fg dir ugt).2).isSome
      = true) :
    (save_robot_trajectories_to_tum_file gti h2 q3 fg dir ugt).1.length
      = fg.all_robot_chars.length ∧
    ∀ i (hi : i < (save_robot_trajectories_to_tum_file gti h2 q3 fg dir ugt).1.length)
      (hr : i < fg.all_robot_chars.length),
      ∃ traj,
        List.lookup (fg.all_robot_chars.get ⟨i, hr⟩)
            (if ugt then fg.robot_true_trajectories_dict
             else fg.robot_odometry_trajectories_dict) = some traj ∧
        mapOpt (fun e => tum_entry_row gti h2 q3 fg.pose_variables_dict e.1 e.2) traj
          = some ((save_robot_trajectories_to_tum_file gti h2 q3 fg dir
              ugt).1.get ⟨i, hi⟩).lines.tail ∧
        ((save_robot_trajectories_to_tum_file gti h2 q3 fg dir ugt).1.get
            ⟨i, hi⟩).lines
          = tumHeader :: ((save_robot_trajectories_to_tum_file gti h2 q3 fg dir
              ugt).1.get ⟨i, hi⟩).lines.tail ∧
        ((save_robot_trajectories_to_tum_file gti h2 q3 fg dir ugt).1.get
            ⟨i, hi⟩).lines.tail.length = traj.length ∧
        ∀ r ∈ ((save_robot_trajectories_to_tum_file gti h2 q3 fg dir ugt).1.get
            ⟨i, hi⟩).lines.tail, tumDataLine F_PREC r = true := by
  unfold save_robot_trajectories_to_tum_file at hs ⊢
  rcases saveTumAux_success _ _ _ _ _ hs with ⟨hmap, _⟩
  have hlen := mapOpt_length _ _ _ hmap
  refine ⟨hlen, ?_⟩
  intro i hi hr
  have hget := mapOpt_get _ _ _ hmap i hr hi
  rcases expectedTumFile_spec _ _ _ _ _ _ hget with ⟨traj, hlk, hrows, hlines⟩
  refine ⟨traj, hlk, hrows, hlines, mapOpt_length _ _ _ hrows, ?_⟩
  intro r hr2
  rcases mapOpt_mem _ _ _ hrows r hr2 with ⟨e, _, hfe⟩
  exact tum_entry_row_shape gti h2 q3 fg.pose_variables_dict e.1 e.2 r hfe

unseal Rat.add Rat.mul Rat.inv Rat.sub in
/-- C5 witness: on the sample graph the single written file has one data row
per trajectory entry (two), each an eight-field fixed-point row. -/
theorem claim_C5_witness :
    (save_robot_trajectories_to_tum_file gtiZero half2Sample q3Sample fgSample
        "tmp" true).1.length = fgSample.all_robot_chars.length ∧
    ∃ traj,
      List.lookup (fgSample.all_robot_chars.get ⟨0, by decide⟩)
          (if true then fgSample.robot_true_trajectories_dict
           else fgSample.robot_odometry_trajectories_dict) = some traj ∧
      mapOpt (fun e => tum_entry_row gtiZero half2Sample q3Sample
          fgSample.pose_variables_dict e.1 e.2) traj
        = some ((save_robot_trajectories_to_tum_file gtiZero half2Sample q3Sample
            fgSample "tmp" true).1.get ⟨0, by decide⟩).lines.tail ∧
      ((save_robot_trajectories_to_tum_file gtiZero half2Sample q3Sample fgSample
          "tmp" true).1.get ⟨0, by decide⟩).lines
        = tumHeader :: ((save_robot_trajectories_to_tum_file gtiZero half2Sample
            q3Sample fgSample "tmp" true).1.get ⟨0, by decide⟩).lines.tail ∧
      ((save_robot_trajectories_to_tum_file gtiZero half2Sample q3Sample fgSample
          "tmp" true).1.get ⟨0, by decide⟩).lines.tail.length = traj.length ∧
      ∀ r ∈ ((save_robot_trajectories_to_tum_file gtiZero half2Sample q3Sample
          fgSample "tmp" true).1.get ⟨0, by decide⟩).lines.tail,
        tumDataLine F_PREC r = true :=
  ⟨(claim_C5 gtiZero half2Sample q3Sample fgSample "tmp" true (by decide)).1,
   (claim_C5 gtiZero half2Sample q3Sample fgSample "tmp" true (by decide)).2 0
     (by decide) (by decide)⟩

/-- C8: when the exporter completes, the first line of every written file is
exactly the header comment, and every following line is a data row (eight
space-separated fixed-point fields). -/
theorem claim_C8 (gti : String → ℚ) (h2 : ℚ → ℚ → ℚ × ℚ)
    (q3 : Mat3 → ℚ × ℚ × ℚ × ℚ) (fg : FactorGraphData) (dir : String) (ugt : Bool)
    (f : TumFile)
    (hs : ((save_robot_trajectories_to_tum_file gti h2 q3 fg dir ugt).2).isSome
      = true)
    (hf : f ∈ (save_robot_trajectories_to_tum_file gti h2 q3 fg dir ugt).1) :
    f.lines.head? = some "# time_stamp x y z qx qy qz qw" ∧
    ∀ r ∈ f.lines.tail, tumDataLine F_PREC r = true := by
  unfold save_robot_trajectories_to_tum_file at hs hf
  rcases saveTumAux_success _ _ _ _ _ hs with ⟨hmap, _⟩
  rcases mapOpt_mem _ _ _ hmap f hf with ⟨c, _, hc⟩
  rcases expectedTumFile_spec _ _ _ _ _ _ hc with ⟨traj, _, hrows, hlines⟩
  constructor
  · rw [hlines]
    rfl
  · intro r hr2
    rcases mapOpt_mem _ _ _ hrows r hr2 with ⟨e, _, hfe⟩
    exact tum_entry_row_shape gti h2 q3 fg.pose_variables_dict e.1 e.2 r hfe

unseal Rat.add Rat.mul Rat.inv Rat.sub in
/-- C8 witness: the concrete file written for the sample graph starts with
the header line, and its two data rows are well-formed TUM rows. -/
theorem claim_C8_witness :
    (TumFile.mk "tmp/odom_gt_robot_A.txt"
        ["# time_stamp x y z qx qy qz qw",
         "0.000000 1.000000 2.000000 0.000000 0.000000 0.000000 0.000000 1.000000",
         "0.000000 1.000000 2.000000 0.000000 0.000000 0.000000 0.000000 1.000000"]
      ).lines.head? = some "# time_stamp x y z qx qy qz qw" ∧
    ∀ r ∈ (TumFile.mk "tmp/odom_gt_robot_A.txt"
        ["# time_stamp x y z qx qy qz qw",
         "0.000000 1.000000 2.000000 0.000000 0.000000 0.000000 0.000000 1.000000",
         "0.000000 1.000000 2.000000 0.000000 0.000000 0.000000 0.000000 1.000000"]
      ).lines.tail, tumDataLine F_PREC r = true :=
  claim_C8 gtiZero half2Sample q3Sample fgSample "tmp" true _ (by decide) (by decide)

unseal Rat.add Rat.mul Rat.inv Rat.sub in
/-- C7 counterexample: on `fgPartial` the pose-variable lookup for frame
"A1" fails midway through robot A's file, and the file is left on disk with
two lines (the header and the first row) although a fully written file for
the two-entry trajectory would have three lines — so the file is neither
fully written nor absent, refuting per-robot atomicity as claimed. -/
theorem claim_C7_counterexample :
    ¬ (∀ f ∈ (save_robot_trajectories_to_tum_file gtiZero half2Sample q3Sample
          fgPartial "tmp" true).1,
        f.lines = [] ∨
        (List.lookup 'A' fgPartial.robot_true_trajectories_dict).map
            (fun traj => traj.length + 1) = some f.lines.length) := by
  decide

/-- C7 amended: per-robot files are not atomic — a mid-file failure leaves
the partial file on disk (see the counterexample); what holds is that when
the exporter returns successfully, every per-robot file is fully written:
header plus exactly one row per entry of that robot's trajectory. -/
theorem claim_C7_amended (gti : String → ℚ) (h2 : ℚ → ℚ → ℚ × ℚ)
    (q3 : Mat3 → ℚ × ℚ × ℚ × ℚ) (fg : FactorGraphData) (dir : String) (ugt : Bool)
    (hs : ((save_robot_trajectories_to_tum_file gti h2 q3 fg dir ugt).2).isSome
      = true) :
    (save_robot_trajectories_to_tum_file gti h2 q3 fg dir ugt).1.length
      = fg.all_robot_chars.length ∧
    ∀ i (hi : i < (save_robot_trajectories_to_tum_file gti h2 q3 fg dir ugt).1.length)
      (hr : i < fg.all_robot_chars.length),
      ∃ traj,
        List.lookup (fg.all_robot_chars.get ⟨i, hr⟩)
            (if ugt then fg.robot_true_trajectories_dict
             else fg.robot_odometry_trajectories_dict) = some traj ∧
        ((save_robot_trajectories_to_tum_file gti h2 q3 fg dir ugt).1.get
            ⟨i, hi⟩).lines.length = traj.length + 1 := by
  unfold save_robot_trajectories_to_tum_file at hs ⊢
  rcases saveTumAux_success _ _ _ _ _ hs with ⟨hmap, _⟩
  have hlen := mapOpt_length _ _ _ hmap
  refine ⟨hlen, ?_⟩
  intro i hi hr
  have hget := mapOpt_get _ _ _ hmap i hr hi
  rcases expectedTumFile_spec _ _ _ _ _ _ hget with ⟨traj, hlk, hrows, hlines⟩
  refine ⟨traj, hlk, ?_⟩
  rw [hlines]
  simp only [List.length_cons]
  rw [mapOpt_length _ _ _ hrows]

unseal Rat.add Rat.mul Rat.inv Rat.sub in
/-- C7 amended witness: on the sample graph the completed export leaves the
single file fully written: three lines for the two-entry trajectory. -/
theorem claim_C7_amended_witness :
    (save_robot_trajectories_to_tum_file gtiZero half2Sample q3Sample fgSample
        "tmp" true).1.length = fgSample.all_robot_chars.length ∧
    ∃ traj,
      List.lookup (fgSample.all_robot_chars.get ⟨0, by decide⟩)
          (if true then fgSample.robot_true_trajectories_dict
           else fgSample.robot_odometry_trajectories_dict) = some traj ∧
      ((save_robot_trajectories_to_tum_file gtiZero half2Sample q3Sample fgSample
          "tmp" true).1.get ⟨0, by decide⟩).lines.length = traj.length + 1 :=
  ⟨(claim_C7_amended gtiZero half2Sample q3Sample fgSample "tmp" true (by decide)).1,
   (claim_C7_amended gtiZero half2Sample q3Sample fgSample "tmp" true (by decide)).2
     0 (by decide) (by decide)⟩
